import Mathlib

/-!
Verification development for the Gig-o-Download repository.

The definitions below are a shallow embedding of the Python sources:
`gig_o_download/download.py`, `gig_o_download/__init__.py`,
`gig_o_download/make_csv.py` (the package), and the legacy top-level
`download.py`.  Strings are modelled as Lean `String` / `List Char`,
calendar dates as a year-month-day record, machine I/O (HTTP responses,
the file system, the clock) as explicit function arguments and result
records, and Python exceptions / process exits as explicit outcome
constructors.
-/

namespace GigO

/-! ### Characters and Python string helpers -/

/-- Characters kept by the regex substitution in `Gig.fileSafeName`
(download.py line 24): the complement of the class outside
ASCII letters, digits, space (32), comma (44), period (46), hyphen (45). -/
def isSafeChar (c : Char) : Bool :=
  decide ((65 ≤ c.toNat ∧ c.toNat ≤ 90) ∨ (97 ≤ c.toNat ∧ c.toNat ≤ 122) ∨
    (48 ≤ c.toNat ∧ c.toNat ≤ 57) ∨ c.toNat = 32 ∨ c.toNat = 44 ∨
    c.toNat = 46 ∨ c.toNat = 45)

/-- The characters CPython treats as whitespace, both for the regex
whitespace class on `str` patterns and for `str.strip` (the Unicode
White_Space set used by `Py_UNICODE_ISSPACE`). -/
def isPyWhitespace (c : Char) : Bool :=
  decide ((9 ≤ c.toNat ∧ c.toNat ≤ 13) ∨ (28 ≤ c.toNat ∧ c.toNat ≤ 31) ∨
    c.toNat = 32 ∨ c.toNat = 0x85 ∨ c.toNat = 0xA0 ∨ c.toNat = 0x1680 ∨
    (0x2000 ≤ c.toNat ∧ c.toNat ≤ 0x200A) ∨ c.toNat = 0x2028 ∨
    c.toNat = 0x2029 ∨ c.toNat = 0x202F ∨ c.toNat = 0x205F ∨ c.toNat = 0x3000)

/-- One pass of the substitution replacing every maximal run of whitespace
by a single space (the package `fileSafeName`, download.py line 25).  The
Boolean records whether we are inside a whitespace run whose replacement
space has already been emitted. -/
def collapseWsAux : Bool → List Char → List Char
  | _, [] => []
  | true, c :: rest =>
    if isPyWhitespace c then collapseWsAux true rest
    else c :: collapseWsAux false rest
  | false, c :: rest =>
    if isPyWhitespace c then ' ' :: collapseWsAux true rest
    else c :: collapseWsAux false rest

/-- Replace every maximal run of whitespace characters by a single space. -/
def collapseWs (s : List Char) : List Char := collapseWsAux false s

/-- The legacy substitution (top-level download.py line 30) replaces every
run of TWO OR MORE plain spaces by a single space; a lone space is left
unchanged, so every maximal run of plain spaces again becomes one space,
and non-space whitespace is untouched. -/
def collapseSpacesAux : Bool → List Char → List Char
  | _, [] => []
  | true, c :: rest =>
    if c = ' ' then collapseSpacesAux true rest
    else c :: collapseSpacesAux false rest
  | false, c :: rest =>
    if c = ' ' then ' ' :: collapseSpacesAux true rest
    else c :: collapseSpacesAux false rest

/-- Replace every maximal run of plain spaces by a single space. -/
def collapseSpaces (s : List Char) : List Char := collapseSpacesAux false s

/-- Remove trailing Python whitespace (the right half of `str.strip`). -/
def dropTrailingWs : List Char → List Char
  | [] => []
  | c :: rest =>
    let r := dropTrailingWs rest
    if r.isEmpty then (if isPyWhitespace c then [] else [c]) else c :: r

/-- Python `str.strip()`: drop leading and trailing whitespace. -/
def pyStrip (s : List Char) : List Char :=
  dropTrailingWs (s.dropWhile isPyWhitespace)

/-- Whether the character list contains two adjacent plain spaces. -/
def hasDoubledSpace : List Char → Bool
  | c1 :: c2 :: rest => decide (c1 = ' ' ∧ c2 = ' ') || hasDoubledSpace (c2 :: rest)
  | _ => false

/-- Whether the character list has no leading and no trailing whitespace. -/
def isTrimmed (s : List Char) : Bool :=
  (s.head?.all fun c => !isPyWhitespace c) &&
    (s.getLast?.all fun c => !isPyWhitespace c)

/-! ### Dates (`datetime.date`) -/

/-- A Python `datetime.date`: a calendar date with no time component. -/
structure PyDate where
  year : Nat
  month : Nat
  day : Nat
deriving DecidableEq

/-- Python date comparison: lexicographic on (year, month, day). -/
def PyDate.le (a b : PyDate) : Bool :=
  decide (a.year < b.year ∨ (a.year = b.year ∧
    (a.month < b.month ∨ (a.month = b.month ∧ a.day ≤ b.day))))

/-- The decimal digit character for `n % 10`. -/
def digitChar (n : Nat) : Char :=
  match n % 10 with
  | 0 => '0'
  | 1 => '1'
  | 2 => '2'
  | 3 => '3'
  | 4 => '4'
  | 5 => '5'
  | 6 => '6'
  | 7 => '7'
  | 8 => '8'
  | _ => '9'

/-- Decimal digits of `n`, most significant first (fuel-based so that it
computes by reduction; `n + 1` units of fuel always suffice). -/
def natCharsAux : Nat → Nat → List Char
  | 0, _ => []
  | fuel + 1, n =>
    if n < 10 then [digitChar n]
    else natCharsAux fuel (n / 10) ++ [digitChar (n % 10)]

/-- Decimal digits of `n`, most significant first. -/
def natChars (n : Nat) : List Char := natCharsAux (n + 1) n

/-- Left-pad a digit string with zeros to the given width. -/
def padZeros (width : Nat) (s : List Char) : List Char :=
  List.replicate (width - s.length) '0' ++ s

/-- Python str(date): the ISO form YYYY-MM-DD of a date. -/
def isoChars (d : PyDate) : List Char :=
  padZeros 4 (natChars d.year) ++
    '-' :: (padZeros 2 (natChars d.month) ++ '-' :: padZeros 2 (natChars d.day))

/-! ### The Gig record and its file-safe name -/

/-- One archived event (the `Gig` dataclass, download.py lines 16-25). -/
structure Gig where
  id : String
  name : String
  date : PyDate
deriving DecidableEq

/-- Strip every character outside the safe class (download.py line 24). -/
def stripUnsafe (s : List Char) : List Char := s.filter isSafeChar

/-- The intermediate string of `fileSafeName`:
the ISO date, then a space, then the name with unsafe characters stripped. -/
def fileSafeInput (g : Gig) : List Char :=
  isoChars g.date ++ ' ' :: stripUnsafe g.name.data

/-- The package `Gig.fileSafeName` (download.py lines 22-25): strip the
unsafe characters from the name, prepend the ISO date and a space, collapse
every whitespace run to a single space, and strip the ends. -/
def Gig.fileSafeName (g : Gig) : String :=
  String.mk (pyStrip (collapseWs (fileSafeInput g)))

/-- The legacy `Gig.fileSafeName` (top-level download.py lines
27-30): identical except that only runs of two or more plain spaces are
collapsed. -/
def Gig.fileSafeNameLegacy (g : Gig) : String :=
  String.mk (pyStrip (collapseSpaces (fileSafeInput g)))

/-! ### Sorting gigs by date -/

/-- Order on gigs used by the `key=lambda g: g.date` sorts. -/
def gigLe (a b : Gig) : Prop := PyDate.le a.date b.date = true

instance : DecidableRel gigLe := fun a b =>
  inferInstanceAs (Decidable (PyDate.le a.date b.date = true))

instance : IsTotal Gig gigLe :=
  ⟨by
    intro a b
    simp only [gigLe, PyDate.le, decide_eq_true_eq]
    omega⟩

instance : IsTrans Gig gigLe :=
  ⟨by
    intro a b c
    simp only [gigLe, PyDate.le, decide_eq_true_eq]
    omega⟩

/-- Python `sorted(gigs, key=lambda g: g.date)`: a stable sort by date,
modelled by stable insertion sort. -/
def sortGigsByDate (gigs : List Gig) : List Gig := List.insertionSort gigLe gigs

/-! ### The gig catalog cache (`get_gigs`, download.py lines 90-117) -/

/-- The cache file `gigs.json`: the band id it was written for and the gigs. -/
structure GigsCacheFile where
  band_id : String
  gigs : List Gig
deriving DecidableEq

/-- Observable outcome of one `get_gigs` call: the returned list, the cache
file afterwards, and whether the archive page was fetched over the network. -/
structure GigsOutcome where
  result : List Gig
  cacheAfter : Option GigsCacheFile
  fetchedArchive : Bool
deriving DecidableEq

/-- The cache-miss path of `get_gigs` (download.py lines 111-117): fetch the
archive page, parse and sort the gigs, persist the catalog tagged with the
requested band id, and return the sorted list. The gigs parsed from the
page are passed in as `archiveGigs`. -/
def get_gigs_fresh (archiveGigs : List Gig) (band_id : String) : GigsOutcome :=
  let gigs := sortGigsByDate archiveGigs
  { result := gigs
    cacheAfter := some { band_id := band_id, gigs := gigs }
    fetchedArchive := true }

/-- The function `get_gigs` (download.py lines 90-117).  With a cache file present whose
band id differs, the file is unlinked and the call recurses, which then
takes the cache-miss path; with a matching band id the cached gigs are
deserialized and sorted by date without network access. -/
def get_gigs (cache : Option GigsCacheFile) (archiveGigs : List Gig)
    (band_id : String) : GigsOutcome :=
  match cache with
  | some cf =>
    if cf.band_id ≠ band_id then
      get_gigs_fresh archiveGigs band_id
    else
      { result := sortGigsByDate cf.gigs
        cacheAfter := some cf
        fetchedArchive := false }
  | none => get_gigs_fresh archiveGigs band_id

/-! ### Date filtering in `download` (download.py lines 148-159) -/

/-- The two filters in `download`: each bound, when present (a Python date
is always truthy, `None` is falsy), keeps gigs inclusively inside it. -/
def filterGigs (gigs : List Gig) (start_date end_date : Option PyDate) : List Gig :=
  let gigs1 := match start_date with
    | none => gigs
    | some sd => gigs.filter fun g => PyDate.le sd g.date
  match end_date with
  | none => gigs1
  | some ed => gigs1.filter fun g => PyDate.le g.date ed

/-- The CLI wiring (package init, lines 32-35): `--end-date` carries the
argparse default `date.today()` when the user does not supply it, so the
end filter is always applied, with `today` substituted for a missing bound. -/
def filterGigsCli (gigs : List Gig) (start_date end_date : Option PyDate)
    (today : PyDate) : List Gig :=
  filterGigs gigs start_date (some (end_date.getD today))

/-! ### Auth cookie expiry at process start (package init, lines 17-23) -/

/-- Python `timedelta.days`: the floor of the difference in whole days. -/
def timedeltaDays (diffSeconds : Int) : Int := diffSeconds.fdiv 86400

/-- The expiry test `(datetime.now() - create_datetime).days >= 3`. -/
def authCookieExpired (nowSec createSec : Int) : Bool :=
  decide (3 ≤ timedeltaDays (nowSec - createSec))

/-- Whether process start deletes the cached auth-cookie file: only when it
exists and the expiry test holds. -/
def authCookieDeletedAtStartup (fileExists : Bool) (nowSec createSec : Int) : Bool :=
  fileExists && authCookieExpired nowSec createSec

/-! ### The remote fetch (`fetch`, download.py lines 52-58) -/

/-- Observable outcome of one `fetch` call, given the HTTP response: the
returned body or raised status, whether the cookie file was deleted, and
how many HTTP requests were issued. -/
structure FetchOutcome where
  result : Except Nat String
  cookieDeleted : Bool
  requestCount : Nat

/-- Python `response.raise_for_status()` raises exactly for the 4xx and 5xx ranges. -/
def raisesForStatus (status : Nat) : Bool :=
  decide (400 ≤ status ∧ status < 600)

/-- The function `fetch` (download.py lines 52-58): one GET request; on a 401 response
the cookie file is unlinked before `raise_for_status` raises; any 4xx/5xx
raises `HTTPError` carrying the status; otherwise the body is returned.
No retry happens inside `fetch`. -/
def fetch (status : Nat) (body : String) : FetchOutcome :=
  let deleted := status = 401
  if raisesForStatus status then
    { result := Except.error status, cookieDeleted := deleted, requestCount := 1 }
  else
    { result := Except.ok body, cookieDeleted := deleted, requestCount := 1 }

/-! ### Band resolution (`get_band_info`, download.py lines 66-82) -/

/-- The Python exceptions that can surface in `get_band_info`. -/
inductive PyErr where
  | typeError
  | keyError
  | httpError (status : Nat)
deriving DecidableEq

/-- A fragment of the Python value universe: strings and JSON-style dicts. -/
inductive PyVal where
  | str (s : String)
  | dict (entries : List (String × PyVal))

/-- Python subscription `v[k]` with a string key: dict lookup succeeds or
raises `KeyError`; subscripting a `str` with a string key raises
`TypeError` (string indices must be integers). -/
def PyVal.getItem : PyVal → String → Except PyErr PyVal
  | .dict es, k =>
    match es.find? (fun e => decide (e.1 = k)) with
    | some e => Except.ok e.2
    | none => Except.error PyErr.keyError
  | .str _, _ => Except.error PyErr.typeError

/-- One accessible band as parsed from `api/bands`. -/
structure Band where
  id : String
  shortname : String
deriving DecidableEq

/-- Python `str.lower()` restricted to the ASCII letters exercised here. -/
def pyLower (s : String) : String := String.map Char.toLower s

/-- Observable outcome of `get_band_info`. -/
inductive BandInfoOutcome where
  | found (id shortname : PyVal)
  | notFoundExit (bands : List Band)
  | raised (e : PyErr)

/-- The function `get_band_info` (download.py lines 66-82).  `directResult` is the
outcome of the direct fetch of the api/band path: the raw text on success (the
source binds it WITHOUT `json.loads` and subscripts it with the string key id), or
the raised HTTP status.  `bands` is the parsed result of the api/bands fetch
used by the 404 fallback, which matches shortnames case-insensitively,
returns the first match, and otherwise prints the band list and exits. -/
def get_band_info (directResult : Except Nat String) (bands : List Band)
    (band_id_or_short_name : String) : BandInfoOutcome :=
  match directResult with
  | .ok body =>
    match (PyVal.str body).getItem "id" with
    | .error e => .raised e
    | .ok idVal =>
      match (PyVal.str body).getItem "shortname" with
      | .error e => .raised e
      | .ok snVal => .found idVal snVal
  | .error status =>
    if status ≠ 404 then .raised (PyErr.httpError status)
    else
      match bands.filter
          (fun b => decide (pyLower b.shortname = pyLower band_id_or_short_name)) with
      | [] => .notFoundExit bands
      | b :: _ => .found (PyVal.str b.id) (PyVal.str b.shortname)

/-! ### Per-gig export skip semantics (download.py lines 119-140) -/

/-- Observable outcome of one export call: the returned Boolean, the file
set afterwards, and how many network fetches were performed. -/
structure ExportOutcome where
  didWork : Bool
  filesAfter : List String
  fetchCount : Nat
deriving DecidableEq

/-- Target path of the PDF export: out_dir, slash, fileSafeName, dot pdf. -/
def pdfTarget (outDir : String) (g : Gig) : String :=
  outDir ++ "/" ++ g.fileSafeName ++ ".pdf"

/-- Target path of the JSON export: out_dir, slash, fileSafeName, dot json. -/
def jsonTarget (outDir : String) (g : Gig) : String :=
  outDir ++ "/" ++ g.fileSafeName ++ ".json"

/-- The function `download_gig_pdf` (download.py lines 119-131): when the target file
already exists return `False` doing nothing; otherwise fetch the detail
page (one network call), render and write the PDF, and return `True`. -/
def download_gig_pdf (files : List String) (g : Gig) (outDir : String) : ExportOutcome :=
  let path := pdfTarget outDir g
  if files.contains path then
    { didWork := false, filesAfter := files, fetchCount := 0 }
  else
    { didWork := true, filesAfter := path :: files, fetchCount := 1 }

/-- The function `download_gig_json` (download.py lines 133-140): same skip pattern for
the JSON detail record. -/
def download_gig_json (files : List String) (g : Gig) (outDir : String) : ExportOutcome :=
  let path := jsonTarget outDir g
  if files.contains path then
    { didWork := false, filesAfter := files, fetchCount := 0 }
  else
    { didWork := true, filesAfter := path :: files, fetchCount := 1 }

/-! ### CSV flattening (`make_csv`, make_csv.py lines 8-21) -/

/-- One flat JSON record: key-value pairs in key order of the file. -/
abbrev GigRecord := List (String × String)

/-- Whether the csv writer must quote a field (default QUOTE_MINIMAL
dialect: delimiter, quote character, or a CR/LF present). -/
def csvNeedsQuote (s : String) : Bool :=
  s.data.any fun c => decide (c = ',' ∨ c = '"' ∨ c = '\r' ∨ c = '\n')

/-- Double every quote character inside a quoted field. -/
def csvEscapeQuotes (s : String) : String :=
  String.mk (s.data.flatMap fun c => if c = '"' then ['"', '"'] else [c])

/-- Render one csv field with minimal quoting. -/
def csvField (s : String) : String :=
  if csvNeedsQuote s then "\"" ++ csvEscapeQuotes s ++ "\"" else s

/-- The `DictWriter` field lookup: a key absent from the record falls back to
the default `restval=None`, written as the empty string. -/
def lookupField (r : GigRecord) (k : String) : String :=
  match r.find? (fun e => decide (e.1 = k)) with
  | some e => e.2
  | none => ""

/-- One csv data row for the given header keys. -/
def csvLine (header : List String) (r : GigRecord) : String :=
  String.intercalate "," (header.map fun k => csvField (lookupField r k))

/-- The csv text written by `DictWriter`: the header row then one row per
record, each terminated by the default CRLF line terminator. -/
def renderCsv (header : List String) (records : List GigRecord) : String :=
  String.join ((String.intercalate "," (header.map csvField) ++ "\r\n") ::
    records.map fun r => csvLine header r ++ "\r\n")

/-- The translation table fix-up (make_csv.py lines 18-20): U+2028 and
U+2029 become ordinary newlines; U+200B, U+200C and U+200D are removed. -/
def fixupChar (c : Char) : List Char :=
  if c = '\u2028' ∨ c = '\u2029' then ['\n']
  else if c = '\u200B' ∨ c = '\u200C' ∨ c = '\u200D' then []
  else [c]

/-- Apply the fix-up translation to a whole string. -/
def fixup (s : String) : String := String.mk (s.data.flatMap fixupChar)

/-- A character rewritten or removed by the fix-up table. -/
def isBannedCsvChar (c : Char) : Bool :=
  decide (c = '\u2028' ∨ c = '\u2029' ∨ c = '\u200B' ∨ c = '\u200C' ∨ c = '\u200D')

/-- The universal-newline decoding performed by the default text mode of
read_text (newline=None): every CRLF pair and every lone CR becomes LF. -/
def univNewlines : List Char → List Char
  | [] => []
  | '\r' :: '\n' :: rest => '\n' :: univNewlines rest
  | '\r' :: rest => '\n' :: univNewlines rest
  | c :: rest => c :: univNewlines rest

/-- The newline encoding performed by the default text mode of write_text
(newline=None): every LF is written as the platform separator os.linesep
(LF on POSIX, CRLF on Windows), passed in as `linesep`. -/
def encodeNewlines (linesep : String) (s : List Char) : List Char :=
  s.flatMap fun c => if c = '\n' then linesep.data else [c]

/-- Whether every key of the record appears among the header keys.  With
the default extrasaction of `DictWriter`, a record with a key outside the
header makes the row write raise `ValueError`. -/
def recordKeysSubset (header : List String) (r : GigRecord) : Bool :=
  r.all fun e => header.contains e.1

/-- Result of `make_csv`: the final file content, the `IndexError` from
`gigs[0]` when the directory holds no JSON files, or the `ValueError`
raised by `DictWriter` for a record with a key outside the header. -/
inductive CsvResult where
  | ok (content : String)
  | indexError
  | valueError
deriving DecidableEq

/-- The file content of a csv result, empty when the call failed. -/
def CsvResult.content : CsvResult → String
  | .ok s => s
  | .indexError => ""
  | .valueError => ""

/-- Whether the csv run completed without raising. -/
def CsvResult.isOk : CsvResult → Bool
  | .ok _ => true
  | .indexError => false
  | .valueError => false

/-- The function `make_csv` (make_csv.py lines 8-21): `records` are the
parsed JSON files in directory-iteration order and `linesep` is the
ambient os.linesep.  With no records, `gigs[0].keys()` raises
`IndexError`.  A record holding a key outside the header (the keys of the
first record) makes `DictWriter` raise `ValueError`.  Otherwise the
`DictWriter` output (written through an open with newline set to the empty
string, hence raw CRLF terminators) is read back with universal newlines
(CRLF and CR become LF), translated through the fix-up table, and written
again with the default newline handling, which maps every LF to
os.linesep. -/
def make_csv (linesep : String) (records : List GigRecord) : CsvResult :=
  match records with
  | [] => .indexError
  | first :: _ =>
    let header := first.map Prod.fst
    if records.all (fun r => recordKeysSubset header r) then
      .ok (String.mk (encodeNewlines linesep
        (fixup (String.mk (univNewlines (renderCsv header records).data))).data))
    else .valueError

/-! ### Helper lemmas about characters and digit strings -/

theorem isSafeChar_digitChar (n : Nat) : isSafeChar (digitChar n) = true := by
  unfold digitChar
  generalize n % 10 = m
  rcases m with _ | _ | _ | _ | _ | _ | _ | _ | _ | m <;> rfl

theorem mem_natCharsAux_safe (fuel : Nat) : ∀ (n : Nat) (c : Char),
    c ∈ natCharsAux fuel n → isSafeChar c = true := by
  induction fuel with
  | zero => intro n c h; simp [natCharsAux] at h
  | succ fuel ih =>
    intro n c h
    unfold natCharsAux at h
    split at h
    · simp at h; subst h; exact isSafeChar_digitChar n
    · rcases List.mem_append.mp h with h1 | h1
      · exact ih _ _ h1
      · simp at h1; subst h1; exact isSafeChar_digitChar (n % 10)

theorem mem_padZeros_safe (w : Nat) (s : List Char)
    (hs : ∀ c ∈ s, isSafeChar c = true) (c : Char)
    (h : c ∈ padZeros w s) : isSafeChar c = true := by
  unfold padZeros at h
  rcases List.mem_append.mp h with h1 | h1
  · rw [List.eq_of_mem_replicate h1]; rfl
  · exact hs c h1

theorem mem_isoChars_safe (d : PyDate) (c : Char) (h : c ∈ isoChars d) :
    isSafeChar c = true := by
  unfold isoChars natChars at h
  rcases List.mem_append.mp h with h1 | h1
  · exact mem_padZeros_safe _ _ (fun e he => mem_natCharsAux_safe _ _ _ he) c h1
  · rcases List.mem_cons.mp h1 with h2 | h2
    · subst h2; rfl
    · rcases List.mem_append.mp h2 with h3 | h3
      · exact mem_padZeros_safe _ _ (fun e he => mem_natCharsAux_safe _ _ _ he) c h3
      · rcases List.mem_cons.mp h3 with h4 | h4
        · subst h4; rfl
        · exact mem_padZeros_safe _ _ (fun e he => mem_natCharsAux_safe _ _ _ he) c h4

theorem mem_fileSafeInput_safe (g : Gig) (c : Char) (h : c ∈ fileSafeInput g) :
    isSafeChar c = true := by
  unfold fileSafeInput at h
  rcases List.mem_append.mp h with h1 | h1
  · exact mem_isoChars_safe _ _ h1
  · rcases List.mem_cons.mp h1 with h2 | h2
    · subst h2; rfl
    · exact (List.mem_filter.mp h2).2

theorem safe_ws_iff (c : Char) (hs : isSafeChar c = true) :
    isPyWhitespace c = decide (c = ' ') := by
  by_cases h : c = ' '
  · subst h; rfl
  · have hne : c.toNat ≠ 32 := by
      intro hn
      exact h (Char.eq_of_val_eq (UInt32.ext hn))
    rw [decide_eq_false h]
    simp only [isSafeChar, decide_eq_true_eq] at hs
    simp only [isPyWhitespace, decide_eq_false_iff_not]
    omega

/-! ### Helper lemmas about whitespace collapsing and stripping -/

theorem mem_collapseWsAux (s : List Char) : ∀ (b : Bool) (c : Char),
    c ∈ collapseWsAux b s → c = ' ' ∨ c ∈ s := by
  induction s with
  | nil => intro b c h; cases b <;> simp [collapseWsAux] at h
  | cons d rest ih =>
    intro b c h
    cases b <;> unfold collapseWsAux at h <;> split at h
    · rcases List.mem_cons.mp h with h1 | h1
      · exact Or.inl h1
      · rcases ih _ _ h1 with h2 | h2
        · exact Or.inl h2
        · exact Or.inr (List.mem_cons_of_mem d h2)
    · rcases List.mem_cons.mp h with h1 | h1
      · exact Or.inr (h1 ▸ List.mem_cons_self d rest)
      · rcases ih _ _ h1 with h2 | h2
        · exact Or.inl h2
        · exact Or.inr (List.mem_cons_of_mem d h2)
    · rcases ih _ _ h with h1 | h1
      · exact Or.inl h1
      · exact Or.inr (List.mem_cons_of_mem d h1)
    · rcases List.mem_cons.mp h with h1 | h1
      · exact Or.inr (h1 ▸ List.mem_cons_self d rest)
      · rcases ih _ _ h1 with h2 | h2
        · exact Or.inl h2
        · exact Or.inr (List.mem_cons_of_mem d h2)

theorem collapseWsAux_true_head (s : List Char) : ∀ (c : Char),
    (collapseWsAux true s).head? = some c → isPyWhitespace c = false := by
  induction s with
  | nil => intro c h; simp [collapseWsAux] at h
  | cons d rest ih =>
    intro c h
    unfold collapseWsAux at h
    split at h
    · exact ih c h
    · rename_i hw
      simp only [List.head?_cons, Option.some.injEq] at h
      subst h
      simpa using hw

theorem hasDoubledSpace_tail (d : Char) (t : List Char)
    (h : hasDoubledSpace (d :: t) = false) : hasDoubledSpace t = false := by
  cases t with
  | nil => rfl
  | cons e u =>
    unfold hasDoubledSpace at h
    exact (Bool.or_eq_false_iff.mp h).2

theorem hasDoubledSpace_collapseWsAux (s : List Char) : ∀ (b : Bool),
    hasDoubledSpace (collapseWsAux b s) = false := by
  induction s with
  | nil => intro b; cases b <;> rfl
  | cons d rest ih =>
    intro b
    have hnonspace : ∀ (e : Char) (u : List Char), isPyWhitespace d = false →
        collapseWsAux false rest = e :: u →
        hasDoubledSpace (d :: e :: u) = false := by
      intro e u hw hrec
      unfold hasDoubledSpace
      rw [Bool.or_eq_false_iff]
      constructor
      · simp only [decide_eq_false_iff_not]
        rintro ⟨rfl, -⟩
        simp [isPyWhitespace] at hw
      · rw [← hrec]; exact ih false
    cases b with
    | true =>
      unfold collapseWsAux
      split
      · exact ih true
      · rename_i hw
        cases hrec : collapseWsAux false rest with
        | nil => rfl
        | cons e u => exact hnonspace e u (by simpa using hw) hrec
    | false =>
      unfold collapseWsAux
      split
      · rename_i hw
        cases hrec : collapseWsAux true rest with
        | nil => rfl
        | cons e u =>
          unfold hasDoubledSpace
          rw [Bool.or_eq_false_iff]
          constructor
          · simp only [decide_eq_false_iff_not]
            rintro ⟨-, rfl⟩
            have := collapseWsAux_true_head rest ' ' (by rw [hrec]; rfl)
            simp [isPyWhitespace] at this
          · rw [← hrec]; exact ih true
      · rename_i hw
        cases hrec : collapseWsAux false rest with
        | nil => rfl
        | cons e u => exact hnonspace e u (by simpa using hw) hrec

theorem hasDoubledSpace_dropWhile (p : Char → Bool) (s : List Char)
    (h : hasDoubledSpace s = false) :
    hasDoubledSpace (s.dropWhile p) = false := by
  induction s with
  | nil => exact h
  | cons d rest ih =>
    rw [List.dropWhile_cons]
    split
    · exact ih (hasDoubledSpace_tail d rest h)
    · exact h

theorem dropTrailingWs_head (s : List Char) : ∀ (c : Char) (t : List Char),
    dropTrailingWs s = c :: t → ∃ u, s = c :: u := by
  cases s with
  | nil => intro c t h; simp [dropTrailingWs] at h
  | cons d rest =>
    intro c t h
    simp only [dropTrailingWs] at h
    cases hr : dropTrailingWs rest with
    | nil =>
      rw [hr] at h
      simp only [List.isEmpty_nil, if_true] at h
      split at h
      · simp at h
      · simp only [List.cons.injEq] at h
        exact ⟨rest, by rw [h.1]⟩
    | cons e u =>
      rw [hr] at h
      simp only [List.isEmpty_cons, Bool.false_eq_true, if_false, List.cons.injEq] at h
      exact ⟨rest, by rw [h.1]⟩

theorem mem_dropTrailingWs (s : List Char) : ∀ (c : Char),
    c ∈ dropTrailingWs s → c ∈ s := by
  induction s with
  | nil => intro c h; simp [dropTrailingWs] at h
  | cons d rest ih =>
    intro c h
    simp only [dropTrailingWs] at h
    cases hr : dropTrailingWs rest with
    | nil =>
      rw [hr] at h
      simp only [List.isEmpty_nil, if_true] at h
      split at h
      · simp at h
      · simp at h; simp [h]
    | cons e u =>
      rw [hr] at h
      simp only [List.isEmpty_cons, Bool.false_eq_true, if_false] at h
      rcases List.mem_cons.mp h with h1 | h1
      · simp [h1]
      · exact List.mem_cons_of_mem d (ih c (by rw [hr]; exact h1))

theorem dropTrailingWs_getLast (s : List Char) : ∀ (c : Char),
    (dropTrailingWs s).getLast? = some c → isPyWhitespace c = false := by
  induction s with
  | nil => intro c h; simp [dropTrailingWs] at h
  | cons d rest ih =>
    intro c h
    simp only [dropTrailingWs] at h
    cases hr : dropTrailingWs rest with
    | nil =>
      rw [hr] at h
      simp only [List.isEmpty_nil, if_true] at h
      split at h
      · simp at h
      · rename_i hw
        simp only [List.getLast?_singleton, Option.some.injEq] at h
        subst h
        simpa using hw
    | cons e u =>
      rw [hr] at h
      simp only [List.isEmpty_cons, Bool.false_eq_true, if_false] at h
      rw [List.getLast?_cons_cons] at h
      exact ih c (by rw [hr]; exact h)

theorem hasDoubledSpace_dropTrailingWs (s : List Char)
    (h : hasDoubledSpace s = false) :
    hasDoubledSpace (dropTrailingWs s) = false := by
  induction s with
  | nil => exact h
  | cons d rest ih =>
    simp only [dropTrailingWs]
    cases hr : dropTrailingWs rest with
    | nil =>
      simp only [List.isEmpty_nil, if_true]
      split <;> rfl
    | cons e u =>
      simp only [List.isEmpty_cons, Bool.false_eq_true, if_false]
      have h2 : hasDoubledSpace (e :: u) = false := by
        rw [← hr]; exact ih (hasDoubledSpace_tail d rest h)
      have hde : ¬(d = ' ' ∧ e = ' ') := by
        rintro ⟨rfl, rfl⟩
        obtain ⟨u', hu⟩ := dropTrailingWs_head rest ' ' u hr
        rw [hu] at h
        unfold hasDoubledSpace at h
        simp at h
      unfold hasDoubledSpace
      rw [Bool.or_eq_false_iff]
      exact ⟨by simpa using hde, h2⟩

theorem head_dropWhile_not (p : Char → Bool) (s : List Char) : ∀ (c : Char),
    (s.dropWhile p).head? = some c → p c = false := by
  induction s with
  | nil => intro c h; simp at h
  | cons d rest ih =>
    intro c h
    rw [List.dropWhile_cons] at h
    split at h
    · exact ih c h
    · rename_i hp
      simp only [List.head?_cons, Option.some.injEq] at h
      subst h
      simpa using hp

theorem isTrimmed_pyStrip (s : List Char) : isTrimmed (pyStrip s) = true := by
  unfold isTrimmed
  rw [Bool.and_eq_true]
  constructor
  · cases hh : (pyStrip s).head? with
    | none => rfl
    | some c =>
      unfold pyStrip at hh
      cases hd : dropTrailingWs (s.dropWhile isPyWhitespace) with
      | nil => rw [hd] at hh; simp at hh
      | cons e u =>
        rw [hd] at hh
        simp only [List.head?_cons, Option.some.injEq] at hh
        subst hh
        obtain ⟨u', hu⟩ := dropTrailingWs_head _ e u hd
        have he : (s.dropWhile isPyWhitespace).head? = some e := by rw [hu]; rfl
        have := head_dropWhile_not isPyWhitespace s e he
        simp [this]
  · cases hh : (pyStrip s).getLast? with
    | none => rfl
    | some c =>
      have := dropTrailingWs_getLast (s.dropWhile isPyWhitespace) c hh
      simp [this]

/-! ### C1 and C10: the file-safe name -/

/-- C1: for every gig, `fileSafeName` (ISO date, space, stripped name,
whitespace runs collapsed, trimmed) contains only characters in the safe
class, has no doubled spaces and no leading or trailing whitespace; on the
date 2023-05-01 with name Joe-apostrophe-s Bar ampersand Grill bang bang it
yields the string given in the specification. -/
theorem C1_fileSafeName_props (g : Gig) :
    g.fileSafeName.data.all isSafeChar = true ∧
    hasDoubledSpace g.fileSafeName.data = false ∧
    isTrimmed g.fileSafeName.data = true ∧
    (Gig.mk "g1"
        (String.mk ['J', 'o', 'e', Char.ofNat 39, 's', ' ', 'B', 'a', 'r', ' ', '&',
          ' ', 'G', 'r', 'i', 'l', 'l', '!', '!'])
        (PyDate.mk 2023 5 1)).fileSafeName = "2023-05-01 Joes Bar Grill" := by
  refine ⟨?_, ?_, ?_, by rfl⟩
  · rw [List.all_eq_true]
    intro c hc
    have hc1 : c ∈ collapseWs (fileSafeInput g) :=
      (List.dropWhile_suffix isPyWhitespace).subset
        (mem_dropTrailingWs _ c hc)
    rcases mem_collapseWsAux _ _ _ hc1 with h1 | h1
    · subst h1; rfl
    · exact mem_fileSafeInput_safe g c h1
  · exact hasDoubledSpace_dropTrailingWs _
      (hasDoubledSpace_dropWhile _ _ (hasDoubledSpace_collapseWsAux _ false))
  · exact isTrimmed_pyStrip _

theorem collapse_eq_on_space_only (s : List Char) : ∀ (b : Bool),
    (∀ c ∈ s, isPyWhitespace c = decide (c = ' ')) →
    collapseWsAux b s = collapseSpacesAux b s := by
  induction s with
  | nil => intro b _; cases b <;> rfl
  | cons d rest ih =>
    intro b hmem
    have hd : isPyWhitespace d = decide (d = ' ') :=
      hmem d (List.mem_cons_self d rest)
    have hrest : ∀ c ∈ rest, isPyWhitespace c = decide (c = ' ') :=
      fun c hc => hmem c (List.mem_cons_of_mem d hc)
    by_cases hsp : d = ' '
    · subst hsp
      cases b with
      | true =>
        simp only [collapseWsAux, collapseSpacesAux]
        rw [if_pos (show isPyWhitespace ' ' = true from rfl), if_pos trivial]
        exact ih true hrest
      | false =>
        simp only [collapseWsAux, collapseSpacesAux]
        rw [if_pos (show isPyWhitespace ' ' = true from rfl), if_pos trivial]
        exact congrArg (' ' :: ·) (ih true hrest)
    · have hws : isPyWhitespace d = false := by rw [hd, decide_eq_false hsp]
      cases b with
      | true =>
        simp only [collapseWsAux, collapseSpacesAux]
        rw [if_neg (by simp [hws]), if_neg hsp]
        exact congrArg (d :: ·) (ih false hrest)
      | false =>
        simp only [collapseWsAux, collapseSpacesAux]
        rw [if_neg (by simp [hws]), if_neg hsp]
        exact congrArg (d :: ·) (ih false hrest)

/-- C10: the package `fileSafeName` (collapsing every whitespace run) and
the legacy `fileSafeName` (collapsing only runs of two or more plain
spaces) agree on every gig, because the preceding character strip removes
every whitespace character other than the plain space. -/
theorem C10_fileSafeName_equiv (g : Gig) :
    g.fileSafeName = g.fileSafeNameLegacy := by
  unfold Gig.fileSafeName Gig.fileSafeNameLegacy collapseWs collapseSpaces
  congr 2
  exact collapse_eq_on_space_only _ false
    (fun c hc => safe_ws_iff c (mem_fileSafeInput_safe g c hc))

/-! ### C2: band resolution -/

/-- C2 (code-bug evidence): when the direct fetch of `api/band/<s>`
succeeds, `get_band_info` subscripts the raw response text without
`json.loads`, so it raises `TypeError` for every response body instead of
returning the id and shortname of the fetched record; in particular it
does so at the specification input where the accessible band has id 5 and
shortname sparks. -/
theorem C2_direct_success_raises_typeError (body : String) (bands : List Band)
    (s : String) :
    get_band_info (Except.ok body) bands s
      = BandInfoOutcome.raised PyErr.typeError ∧
    get_band_info (Except.ok "any body") [Band.mk "5" "sparks"] "5"
      = BandInfoOutcome.raised PyErr.typeError :=
  ⟨rfl, rfl⟩

/-! ### C3: inclusive date filtering -/

/-- C3 counterexample: with the specification catalog (gigs dated
2023-01-01, 2023-06-15, 2024-01-01) and start 2023-01-01, end 2023-12-31,
the filtered list is NOT exactly the single 2023-06-15 gig: the inclusive
lower bound keeps the 2023-01-01 gig as well. -/
theorem C3_counterexample :
    filterGigsCli
        [Gig.mk "1" "a" (PyDate.mk 2023 1 1), Gig.mk "2" "b" (PyDate.mk 2023 6 15),
          Gig.mk "3" "c" (PyDate.mk 2024 1 1)]
        (some (PyDate.mk 2023 1 1)) (some (PyDate.mk 2023 12 31))
        (PyDate.mk 2024 6 1)
      ≠ [Gig.mk "2" "b" (PyDate.mk 2023 6 15)] := by decide

/-- C3 (amended): the download filter keeps exactly the gigs inside the
inclusive range, the start bound applying only when supplied and the end
bound defaulting to the current date when not supplied; on the example
catalog the range 2023-01-01 to 2023-12-31 yields the gigs dated
2023-01-01 AND 2023-06-15. -/
theorem C3_date_filter (gigs : List Gig) (sd ed : Option PyDate)
    (today : PyDate) (g : Gig) :
    (g ∈ filterGigsCli gigs sd ed today ↔
      g ∈ gigs ∧ sd.all (fun s => PyDate.le s g.date) = true ∧
        PyDate.le g.date (ed.getD today) = true) ∧
    filterGigsCli
        [Gig.mk "1" "a" (PyDate.mk 2023 1 1), Gig.mk "2" "b" (PyDate.mk 2023 6 15),
          Gig.mk "3" "c" (PyDate.mk 2024 1 1)]
        (some (PyDate.mk 2023 1 1)) (some (PyDate.mk 2023 12 31))
        (PyDate.mk 2024 6 1)
      = [Gig.mk "1" "a" (PyDate.mk 2023 1 1), Gig.mk "2" "b" (PyDate.mk 2023 6 15)] := by
  refine ⟨?_, by decide⟩
  unfold filterGigsCli filterGigs
  cases sd
  · simp [List.mem_filter]
  · simp only [List.mem_filter, Option.all_some, Option.getD_some]
    tauto

/-! ### C4: auth cookie expiry at process start -/

/-- C4 counterexample: a cookie file created exactly 3 days ago is deleted
by the startup check although its creation time is not MORE than 3 days in
the past. -/
theorem C4_counterexample :
    authCookieDeletedAtStartup true (3 * 86400) 0 = true ∧
    ¬ ((3 * 86400 : Int) - 0 > 3 * 86400) := by decide

theorem three_le_fdiv_iff (x : Int) : 3 ≤ x.fdiv 86400 ↔ 3 * 86400 ≤ x := by
  rw [Int.fdiv_eq_ediv _ (by omega), Int.le_ediv_iff_mul_le (by omega)]

/-- C4 (amended): at process start the cached auth-cookie file is deleted
iff it exists and its creation time is AT LEAST 3 whole days in the past
(the code compares `timedelta.days >= 3`, so a file exactly 3 days old is
also deleted); a file created 4 days ago is deleted, one created 1 day ago
is kept. -/
theorem C4_startup_expiry (fileExists : Bool) (nowSec createSec : Int) :
    (authCookieDeletedAtStartup fileExists nowSec createSec = true ↔
      fileExists = true ∧ 3 * 86400 ≤ nowSec - createSec) ∧
    authCookieDeletedAtStartup true (4 * 86400) 0 = true ∧
    authCookieDeletedAtStartup true 86400 0 = false := by
  refine ⟨?_, by decide, by decide⟩
  unfold authCookieDeletedAtStartup authCookieExpired timedeltaDays
  rw [Bool.and_eq_true, decide_eq_true_eq, three_le_fdiv_iff]

/-! ### C5 and C6: the gig catalog cache -/

theorem get_gigs_none (archive : List Gig) (band_id : String) :
    get_gigs none archive band_id = get_gigs_fresh archive band_id := rfl

theorem get_gigs_some (cf : GigsCacheFile) (archive : List Gig) (band_id : String) :
    get_gigs (some cf) archive band_id
      = if cf.band_id ≠ band_id then get_gigs_fresh archive band_id
        else { result := sortGigsByDate cf.gigs, cacheAfter := some cf,
               fetchedArchive := false } := rfl

/-- C5: for every band id and archive list in any order, the freshly built
catalog is a permutation of the archive sorted ascending by date, and the
write-then-re-read cycle returns exactly the same sorted list from the
cache without another archive fetch. -/
theorem C5_catalog_roundtrip (band_id : String) (archive : List Gig) :
    (get_gigs none archive band_id).result.Perm archive ∧
    List.Sorted gigLe (get_gigs none archive band_id).result ∧
    get_gigs (get_gigs none archive band_id).cacheAfter archive band_id
      = { result := (get_gigs none archive band_id).result
          cacheAfter := (get_gigs none archive band_id).cacheAfter
          fetchedArchive := false } := by
  refine ⟨List.perm_insertionSort gigLe archive,
    List.sorted_insertionSort gigLe archive, ?_⟩
  have hidem : sortGigsByDate (sortGigsByDate archive) = sortGigsByDate archive :=
    List.Sorted.insertionSort_eq (List.sorted_insertionSort gigLe archive)
  have hcache : (get_gigs none archive band_id).cacheAfter
      = some { band_id := band_id, gigs := sortGigsByDate archive } := rfl
  rw [hcache, get_gigs_some,
    if_neg (show ¬(({ band_id := band_id, gigs := sortGigsByDate archive } :
      GigsCacheFile).band_id ≠ band_id) from fun hne => hne rfl)]
  show ({ result := sortGigsByDate (sortGigsByDate archive)
          cacheAfter := some { band_id := band_id, gigs := sortGigsByDate archive }
          fetchedArchive := false } : GigsOutcome) = _
  rw [hidem]
  rfl

/-- C6: a cached catalog is used only when its stored band id equals the
requested one; on a mismatch the cache file is discarded and the catalog is
rebuilt from the archive page over the network, ignoring the cached gigs. -/
theorem C6_cache_invalidation (cachedBand requested : String)
    (cachedGigs archive : List Gig) (h : cachedBand ≠ requested) :
    get_gigs (some (GigsCacheFile.mk cachedBand cachedGigs)) archive requested
      = get_gigs none archive requested ∧
    (get_gigs (some (GigsCacheFile.mk cachedBand cachedGigs)) archive
        requested).fetchedArchive = true ∧
    (get_gigs (some (GigsCacheFile.mk cachedBand cachedGigs)) archive
        requested).result = sortGigsByDate archive := by
  rw [get_gigs_some, if_pos h]
  exact ⟨rfl, rfl, rfl⟩

/-- Witness for C6 at concrete inputs. -/
theorem C6_cache_invalidation_witness :
    get_gigs (some (GigsCacheFile.mk "B1" [])) [] "B2" = get_gigs none [] "B2" ∧
    (get_gigs (some (GigsCacheFile.mk "B1" [])) [] "B2").fetchedArchive = true ∧
    (get_gigs (some (GigsCacheFile.mk "B1" [])) [] "B2").result = sortGigsByDate [] :=
  C6_cache_invalidation "B1" "B2" [] [] (by decide)

/-! ### C7: export skip semantics -/

/-- C7: the PDF and JSON exports perform their single network fetch and
their file write exactly when the target file is absent, return false
leaving everything untouched when it is present, and a repeated call for
the same gig and output directory is always a no-op returning false. -/
theorem C7_skip_semantics (files : List String) (g : Gig) (outDir : String) :
    ((download_gig_pdf files g outDir).didWork
      = !(files.contains (pdfTarget outDir g))) ∧
    ((download_gig_pdf files g outDir).fetchCount
      = if files.contains (pdfTarget outDir g) then 0 else 1) ∧
    ((download_gig_pdf files g outDir).filesAfter
      = if files.contains (pdfTarget outDir g) then files
        else pdfTarget outDir g :: files) ∧
    (download_gig_pdf (download_gig_pdf files g outDir).filesAfter g outDir
      = { didWork := false
          filesAfter := (download_gig_pdf files g outDir).filesAfter
          fetchCount := 0 }) ∧
    ((download_gig_json files g outDir).didWork
      = !(files.contains (jsonTarget outDir g))) ∧
    ((download_gig_json files g outDir).fetchCount
      = if files.contains (jsonTarget outDir g) then 0 else 1) ∧
    ((download_gig_json files g outDir).filesAfter
      = if files.contains (jsonTarget outDir g) then files
        else jsonTarget outDir g :: files) ∧
    (download_gig_json (download_gig_json files g outDir).filesAfter g outDir
      = { didWork := false
          filesAfter := (download_gig_json files g outDir).filesAfter
          fetchCount := 0 }) := by
  by_cases hp : pdfTarget outDir g ∈ files <;>
    by_cases hj : jsonTarget outDir g ∈ files <;>
      simp [download_gig_pdf, download_gig_json, hp, hj]

/-! ### C8: fetch and the 401 invalidation -/

/-- C8 counterexample: 304 is not a 2xx status, yet `fetch` returns the
body there and raises no error, against the claim that every non-2xx
status other than 401 propagates an error. -/
theorem C8_counterexample :
    (fetch 304 "b").result = Except.ok "b" ∧
    (fetch 304 "b").result ≠ Except.error 304 :=
  ⟨rfl, fun h => Except.noConfusion h⟩

/-- C8 (amended): `fetch` deletes the cookie file exactly on a 401
response, issues exactly one request with no retry, propagates every 4xx
or 5xx status as an error carrying the status with the cookie file
untouched unless the status is 401, and returns the body without an error
for any status outside 400-599 (including non-2xx statuses such as 304). -/
theorem C8_fetch_behavior (status : Nat) (body : String) :
    ((fetch status body).cookieDeleted = true ↔ status = 401) ∧
    (fetch status body).requestCount = 1 ∧
    (fetch status body).result
      = (if 400 ≤ status ∧ status < 600 then Except.error status
         else Except.ok body) := by
  by_cases hr : 400 ≤ status ∧ status < 600 <;>
    simp [fetch, raisesForStatus, hr]

/-! ### C9: CSV flattening -/

theorem fixup_no_banned (s : String) :
    (fixup s).data.all (fun c => !isBannedCsvChar c) = true := by
  show (s.data.flatMap fixupChar).all _ = true
  generalize s.data = l
  induction l with
  | nil => rfl
  | cons d t ih =>
    rw [List.flatMap_cons, List.all_append, Bool.and_eq_true]
    refine ⟨?_, ih⟩
    unfold fixupChar
    split
    · rfl
    · split
      · rfl
      · rename_i h1 h2
        have hnb : isBannedCsvChar d = false := by
          unfold isBannedCsvChar
          rw [decide_eq_false]
          rintro (h | h | h | h | h)
          · exact h1 (Or.inl h)
          · exact h1 (Or.inr h)
          · exact h2 (Or.inl h)
          · exact h2 (Or.inr (Or.inl h))
          · exact h2 (Or.inr (Or.inr h))
        simp [hnb]

theorem encodeNewlines_no_banned (linesep : String)
    (hl : linesep.data.all (fun c => !isBannedCsvChar c) = true)
    (s : List Char) (hs : s.all (fun c => !isBannedCsvChar c) = true) :
    (encodeNewlines linesep s).all (fun c => !isBannedCsvChar c) = true := by
  unfold encodeNewlines
  induction s with
  | nil => rfl
  | cons d t ih =>
    rw [List.all_cons, Bool.and_eq_true] at hs
    rw [List.flatMap_cons, List.all_append, Bool.and_eq_true]
    refine ⟨?_, ih hs.2⟩
    split
    · exact hl
    · simpa using hs.1

theorem make_csv_no_banned (linesep : String)
    (hl : linesep.data.all (fun c => !isBannedCsvChar c) = true)
    (records : List GigRecord) :
    (make_csv linesep records).content.data.all (fun c => !isBannedCsvChar c)
      = true := by
  cases records with
  | nil => rfl
  | cons first rest =>
    simp only [make_csv]
    split
    · exact encodeNewlines_no_banned linesep hl _ (fixup_no_banned _)
    · rfl

/-- C9: `make_csv` raises `IndexError` on a directory with no JSON files
and `ValueError` when some record holds a key outside the header taken
from the first record; otherwise the `DictWriter` csv (header from the
keys of the first record, data rows in directory-iteration order, CRLF
terminators) is re-read with universal newlines, translated through the
fix-up table, and re-written with LF mapped to os.linesep, so the final
file never contains U+2028, U+2029, U+200B, U+200C or U+200D and its line
terminators are uniform; the two example records give exactly the
specification csv, and an embedded U+2028 in a field is rewritten as an
ordinary platform newline, shown for both the POSIX and the Windows
separator. -/
theorem C9_make_csv (linesep : String) (records : List GigRecord)
    (first : GigRecord) (rest : List GigRecord) :
    make_csv linesep [] = CsvResult.indexError ∧
    ((make_csv linesep (first :: rest)).isOk
      = (first :: rest).all (fun r => recordKeysSubset (first.map Prod.fst) r)) ∧
    (make_csv "\n" records).content.data.all (fun c => !isBannedCsvChar c) = true ∧
    (make_csv "\r\n" records).content.data.all (fun c => !isBannedCsvChar c) = true ∧
    make_csv "\n" [[("id", "1"), ("name", "A")], [("id", "2"), ("name", "B")]]
      = CsvResult.ok "id,name\n1,A\n2,B\n" ∧
    make_csv "\r\n" [[("id", "1"), ("name", "A")], [("id", "2"), ("name", "B")]]
      = CsvResult.ok "id,name\r\n1,A\r\n2,B\r\n" ∧
    make_csv "\n" [[("id", "1"), ("name", String.mk ['A', '\u2028', 'B'])]]
      = CsvResult.ok "id,name\n1,A\nB\n" ∧
    make_csv "\r\n" [[("id", "1"), ("name", String.mk ['A', '\u2028', 'B'])]]
      = CsvResult.ok "id,name\r\n1,A\r\nB\r\n" ∧
    make_csv "\n" [[("id", "1")], [("id", "2"), ("name", "B")]]
      = CsvResult.valueError := by
  refine ⟨rfl, ?_, make_csv_no_banned "\n" (by decide) records,
    make_csv_no_banned "\r\n" (by decide) records,
    by decide, by decide, by decide, by decide, by decide⟩
  simp only [make_csv]
  split
  · rename_i hc; exact hc.symm
  · rename_i hc
    simp only [Bool.not_eq_true] at hc
    exact hc.symm

end GigO
